import Mathlib

/-!
Verification of the quasoft/draw drawing context (draw.go) against its
specification.  The Go code is shallowly embedded: machine integers
become Int (Go int is 64-bit and every quantity here stays far from
overflow), the float64 interpolation inside the point-in-polygon test is
modelled exactly over the rationals, and the opaque collaborators
(image.RGBA, truetype fonts, font.Drawer) are modelled as records with
exactly the structure that draw.go reads and writes.
-/

namespace Draw

set_option maxRecDepth 16384

/-- Color models the color.Color interface values that draw.go works
with: the sentinels color.Black, color.White, color.Transparent and
general RGBA values.  The code only ever compares a color against the
transparent sentinel, which interface equality decides. -/
inductive Color where
  | black
  | white
  | transparent
  | rgba (r g b a : Nat)
deriving DecidableEq

/-- Rectangle models image.Rectangle through its min and max corners. -/
structure Rectangle where
  minX : Int
  minY : Int
  maxX : Int
  maxY : Int
deriving DecidableEq

/-- inRect models image.Point.In: min corner inclusive, max exclusive. -/
def inRect (r : Rectangle) (x y : Int) : Bool :=
  decide (r.minX ≤ x) && decide (x < r.maxX) && decide (r.minY ≤ y) && decide (y < r.maxY)

/-- RGBA models image.RGBA as its bounds plus the pixel contents. -/
structure RGBA where
  bounds : Rectangle
  pix : Int → Int → Color

/-- RGBA.set models the image.RGBA Set method: a write outside the
bounds is silently ignored. -/
def RGBA.set (img : RGBA) (x y : Int) (clr : Color) : RGBA :=
  if inRect img.bounds x y then
    { img with pix := fun a b => if a = x ∧ b = y then clr else img.pix a b }
  else
    img

/-- minInt is the helper of the same name in draw.go. -/
def minInt (a b : Int) : Int :=
  if a < b then a else b

/-- maxInt is the helper of the same name in draw.go. -/
def maxInt (a b : Int) : Int :=
  if a > b then a else b

/-- imageRect models the image.Rect constructor, which swaps the two x
and the two y coordinates as needed so the rectangle is well-formed. -/
def imageRect (x0 y0 x1 y1 : Int) : Rectangle :=
  { minX := minInt x0 x1, minY := minInt y0 y1,
    maxX := maxInt x0 x1, maxY := maxInt y0 y1 }

/-- rectIntersect models image.Rectangle.Intersect as used by draw.Draw
to clip the destination region to the image bounds. -/
def rectIntersect (r s : Rectangle) : Rectangle :=
  { minX := maxInt r.minX s.minX, minY := maxInt r.minY s.minY,
    maxX := minInt r.maxX s.maxX, maxY := minInt r.maxY s.maxY }

/-- drawUniform models draw.Draw(dst, r, image.Uniform clr, ZP, Src):
every pixel of r clipped to the destination bounds receives clr. -/
def drawUniform (img : RGBA) (r : Rectangle) (clr : Color) : RGBA :=
  { img with pix := fun a b =>
      if inRect (rectIntersect r img.bounds) a b then clr else img.pix a b }

/-- Font stands in for the opaque truetype.Font. -/
structure Font where
  id : Nat
deriving DecidableEq

/-- FontOptions models truetype.Options; draw.go only touches Size. -/
structure FontOptions where
  size : ℚ
deriving DecidableEq

/-- Face models font.Face values: the built-in basicfont.Face7x13 or a
face built by truetype.NewFace from a font and options. -/
inductive Face where
  | basicFace7x13
  | ttfFace (f : Option Font) (o : Option FontOptions)
deriving DecidableEq

/-- FontDrawer models the font.Drawer state that draw.go configures:
the uniform source color and the face.  The destination is the bound
RGBA image and is held by the context itself. -/
structure FontDrawer where
  src : Color
  face : Face
deriving DecidableEq

/-- Context models the Context struct of draw.go.  The font and
fontOptions fields are pointers in Go and start out nil, hence Option. -/
structure Context where
  rgba : RGBA
  penColor : Color
  fillColor : Color
  textColor : Color
  fontDrawer : FontDrawer
  font : Option Font
  fontOptions : Option FontOptions

/-- newContext models NewContext: black pen, transparent fill, black
text, the basic font face, and nil font and fontOptions pointers. -/
def newContext (img : RGBA) : Context :=
  { rgba := img
    penColor := Color.black
    fillColor := Color.transparent
    textColor := Color.black
    fontDrawer := { src := Color.black, face := Face.basicFace7x13 }
    font := none
    fontOptions := none }

/-- setPen models SetPen. -/
def setPen (c : Context) (clr : Color) : Context :=
  { c with penColor := clr }

/-- setFill models SetFill. -/
def setFill (c : Context) (clr : Color) : Context :=
  { c with fillColor := clr }

/-- setTextColor models SetTextColor. -/
def setTextColor (c : Context) (clr : Color) : Context :=
  { c with textColor := clr }

/-- setFontFace models SetFontFace.  The Go body writes through the
c.fontOptions pointer (star c.fontOptions = star options), so when
either pointer is nil the call is a nil-pointer panic, modelled as
none. -/
def setFontFace (c : Context) (f : Option Font) (options : Option FontOptions) : Option Context :=
  match c.fontOptions, options with
  | some _, some o =>
      some { c with
              font := f
              fontOptions := some o
              fontDrawer := { c.fontDrawer with face := Face.ttfFace f (some o) } }
  | _, _ => none

/-- setFontSize models SetFontSize: it assigns c.fontOptions.Size and
then calls SetFontFace, so a nil fontOptions pointer is a nil-pointer
panic, modelled as none. -/
def setFontSize (c : Context) (size : ℚ) : Option Context :=
  match c.fontOptions with
  | none => none
  | some o =>
      let c1 := { c with fontOptions := some { o with size := size } }
      setFontFace c1 c1.font c1.fontOptions

/-- dot models Dot: sets the pixel at x,y to the pen color. -/
def dot (c : Context) (x y : Int) : Context :=
  { c with rgba := c.rgba.set x y c.penColor }

/-- fillPixel models FillPixel: sets the pixel at x,y to the fill
color. -/
def fillPixel (c : Context) (x y : Int) : Context :=
  { c with rgba := c.rgba.set x y c.fillColor }

/-- dots models Dots: applies Dot to each point in order. -/
def dots (c : Context) (points : List (Int × Int)) : Context :=
  points.foldl (fun c pnt => dot c pnt.1 pnt.2) c

/-- swapXandY is the steepness test of Line: math.Abs(y1-y0) is at
least math.Abs(x1-x0).  The float conversion of 64-bit pixel deltas is
exact, so the test is the integer absolute-value comparison. -/
def swapXandY (x0 y0 x1 y1 : Int) : Bool :=
  decide ((y1 - y0).natAbs ≥ (x1 - x0).natAbs)

/-- swap0and1 is the endpoint-normalization test of Line: swap the
endpoints when iteration along the dominant axis would run backwards. -/
def swap0and1 (x0 y0 x1 y1 : Int) : Bool :=
  if swapXandY x0 y0 x1 y1 then decide (y0 > y1) else decide (x0 > x1)

/-- bresLoop is the stepping loop of Line: n remaining iterations,
current dominant coordinate x, secondary coordinate y, error
accumulator D.  Each iteration emits one pixel (transposed back when
the steep case swapped the axes) and updates y and D exactly as the
loop body of Line does. -/
def bresLoop (sw : Bool) (yi dx dy : Int) : Nat → Int → Int → Int → List (Int × Int)
  | 0, _, _, _ => []
  | n + 1, x, y, D =>
      (if sw then (y, x) else (x, y)) ::
        (if D > 0 then bresLoop sw yi dx dy n (x + 1) (y + yi) (D - 2 * dx + 2 * dy)
         else bresLoop sw yi dx dy n (x + 1) y (D + 2 * dy))

/-- lineCore is the body of Line after the endpoint swap: compute dx
and dy, transpose the roles of x and y in the steep case, normalize the
secondary step direction yi, and run the loop from the (possibly
transposed) x0 up to but excluding x1. -/
def lineCore (sw : Bool) (x0 y0 x1 y1 : Int) : List (Int × Int) :=
  let dx := x1 - x0
  let dy := y1 - y0
  let a0 := if sw then y0 else x0
  let b0 := if sw then x0 else y0
  let a1 := if sw then y1 else x1
  let ddx := if sw then dy else dx
  let ddy := if sw then dx else dy
  let yi : Int := if ddy < 0 then -1 else 1
  let ddy' := if ddy < 0 then -ddy else ddy
  bresLoop sw yi ddx ddy' (a1 - a0).toNat a0 b0 (2 * ddy' - ddx)

/-- lineList is the list of pixels plotted by Line(x0,y0,x1,y1), in
plotting order. -/
def lineList (x0 y0 x1 y1 : Int) : List (Int × Int) :=
  if swap0and1 x0 y0 x1 y1 then lineCore (swapXandY x0 y0 x1 y1) x1 y1 x0 y0
  else lineCore (swapXandY x0 y0 x1 y1) x0 y0 x1 y1

/-- lineDraw models Line as a context operation: each pixel of
lineList is drawn through Dot with the pen color. -/
def lineDraw (c : Context) (x0 y0 x1 y1 : Int) : Context :=
  (lineList x0 y0 x1 y1).foldl (fun c pnt => dot c pnt.1 pnt.2) c

/-- rect models Rect: when the pen is not transparent draw the four
edges, then when the fill is not transparent bulk-fill the region
image.Rect(x0, y0, x1, y0) — the literal destination rectangle that
appears in the source. -/
def rect (c : Context) (x0 y0 x1 y1 : Int) : Context :=
  let c1 :=
    if c.penColor ≠ Color.transparent then
      lineDraw (lineDraw (lineDraw (lineDraw c x0 y0 x1 y0) x1 y0 x1 y1) x1 y1 x0 y1) x0 y0 x0 y1
    else c
  if c1.fillColor ≠ Color.transparent then
    { c1 with rgba := drawUniform c1.rgba (imageRect x0 y0 x1 y0) c1.fillColor }
  else c1

/-- cross models Cross: a vertical then a horizontal line centered at
x,y. -/
def cross (c : Context) (x y size : Int) : Context :=
  lineDraw (lineDraw c x (y - size) x (y + size)) (x - size) y (x + size) y

/-- path models Path: connect consecutive points by lines; the first
point has no preceding segment. -/
def path : Context → List (Int × Int) → Context
  | c, [] => c
  | c, [_] => c
  | c, a :: b :: t => path (lineDraw c a.1 a.2 b.1 b.2) (b :: t)

/-- crossesRay is the per-edge condition inside the loop of
IsInPolygon: the edge from vertex a (index i) to vertex b (index j)
straddles the horizontal line at fY, and the query x lies strictly left
of the interpolated x-intersection.  The guard makes the divisor
nonzero whenever the second conjunct matters, and all inputs are exact
integer-valued floats, modelled over the rationals. -/
def crossesRay (fX fY : ℚ) (a b : ℚ × ℚ) : Bool :=
  (decide (a.2 > fY) != decide (b.2 > fY)) &&
    decide (fX < (b.1 - a.1) * (fY - a.2) / (b.2 - a.2) + a.1)

/-- isInPolygon models IsInPolygon: convert the vertices and the query
point to floats and run the pnpoly even-odd loop, pairing index i with
its cyclic predecessor j (j is ln-1 when i is 0, else i-1). -/
def isInPolygon (x y : Int) (points : List (Int × Int)) : Bool :=
  let p : List (ℚ × ℚ) := points.map (fun pnt => ((pnt.1 : ℚ), (pnt.2 : ℚ)))
  let fX : ℚ := (x : ℚ)
  let fY : ℚ := (y : ℚ)
  let ln := p.length
  (List.range ln).foldl
    (fun odd i =>
      if crossesRay fX fY (p.getD i (0, 0)) (p.getD (if i = 0 then ln - 1 else i - 1) (0, 0))
      then !odd else odd)
    false

/-- dedupPoints models the deduplication pass of Polygon: the Go code
keys a set by the string "x,y", which is exactly structural equality of
the coordinate pair, and keeps first occurrences in order. -/
def dedupPoints (points : List (Int × Int)) : List (Int × Int) :=
  points.foldl (fun acc pnt => if pnt ∈ acc then acc else acc ++ [pnt]) []

/-- polygonBBox is the bounding-box computation of Polygon, exactly as
written in the source: minX and minY start at the image max corner and
maxX and maxY start at the image min corner, every vertex is folded in
with minInt on all four accumulators, and the final clamping applies
minInt against the image min corner and maxInt against the image max
corner. -/
def polygonBBox (b : Rectangle) (p : List (Int × Int)) : Rectangle :=
  let minX := p.foldl (fun m pnt => minInt pnt.1 m) b.maxX
  let maxX := p.foldl (fun m pnt => minInt pnt.1 m) b.minX
  let minY := p.foldl (fun m pnt => minInt pnt.2 m) b.maxY
  let maxY := p.foldl (fun m pnt => minInt pnt.2 m) b.minY
  { minX := minInt minX b.minX
    minY := minInt minY b.minY
    maxX := maxInt maxX b.maxX
    maxY := maxInt maxY b.maxY }

/-- specPolygonBBox follows the words of the specification, for
comparison with polygonBBox: the bounding box of the points, clamped to
the raster surface bounds. -/
def specPolygonBBox (b : Rectangle) (p : List (Int × Int)) : Rectangle :=
  { minX := maxInt b.minX (p.foldl (fun m pnt => minInt pnt.1 m) b.maxX)
    minY := maxInt b.minY (p.foldl (fun m pnt => minInt pnt.2 m) b.maxY)
    maxX := minInt b.maxX (p.foldl (fun m pnt => maxInt pnt.1 m) b.minX)
    maxY := minInt b.maxY (p.foldl (fun m pnt => maxInt pnt.2 m) b.minY) }

/-- intRange is the list of integers from lo (inclusive) to hi
(exclusive), the iteration space of a Go for loop from lo to hi. -/
def intRange (lo hi : Int) : List Int :=
  (List.range (hi - lo).toNat).map (fun k => lo + (k : Int))

/-- polygonFill is the fill phase of Polygon: scan the computed box
row by row and fill every pixel that IsInPolygon accepts. -/
def polygonFill (c : Context) (p : List (Int × Int)) (bb : Rectangle) : Context :=
  (intRange bb.minY bb.maxY).foldl
    (fun c y =>
      (intRange bb.minX bb.maxX).foldl
        (fun c x => if isInPolygon x y p then fillPixel c x y else c) c)
    c

/-- polygon models Polygon: deduplicate, compute the box, outline via
Path when the pen is not transparent, fill when the fill color is not
transparent. -/
def polygon (c : Context) (points : List (Int × Int)) : Context :=
  let p := dedupPoints points
  let bb := polygonBBox c.rgba.bounds p
  let c1 := if c.penColor ≠ Color.transparent then path c p else c
  if c1.fillColor ≠ Color.transparent then polygonFill c1 p bb else c1

/-- domAxis projects a pixel onto the dominant axis of the segment
from (x0,y0) to (x1,y1): the y coordinate in the steep case of Line,
the x coordinate otherwise. -/
def domAxis (x0 y0 x1 y1 : Int) (pt : Int × Int) : Int :=
  if swapXandY x0 y0 x1 y1 then pt.2 else pt.1

/-- toQ is the conversion of integer vertices to floats performed at
the top of IsInPolygon, exact over the rationals. -/
def toQ (points : List (Int × Int)) : List (ℚ × ℚ) :=
  points.map (fun pnt => ((pnt.1 : ℚ), (pnt.2 : ℚ)))

/-- cyclicEdges pairs every vertex with its cyclic predecessor, the
edge traversal order of the loop in IsInPolygon. -/
def cyclicEdges (l : List (ℚ × ℚ)) : List ((ℚ × ℚ) × (ℚ × ℚ)) :=
  l.zip (l.rotate (l.length - 1))

/-- img10 is a 10 by 10 surface initialized to white. -/
def img10 : RGBA :=
  { bounds := { minX := 0, minY := 0, maxX := 10, maxY := 10 }
    pix := fun _ _ => Color.white }

/-- ctx10 is a fresh context over img10: black pen, transparent fill. -/
def ctx10 : Context :=
  newContext img10

/-- ctxFill is a context over img10 with a transparent pen and a black
fill color, isolating the fill phase of shape operations. -/
def ctxFill : Context :=
  { newContext img10 with penColor := Color.transparent, fillColor := Color.black }

/-- C10: SetPen, SetFill and SetTextColor each mutate only their own
color field; the bound surface, the other two color fields and the font
configuration are unchanged. -/
theorem setters_frame (c : Context) (clr : Color) :
    (setPen c clr).penColor = clr ∧
    (setPen c clr).rgba = c.rgba ∧ (setPen c clr).fillColor = c.fillColor ∧
    (setPen c clr).textColor = c.textColor ∧ (setPen c clr).fontDrawer = c.fontDrawer ∧
    (setPen c clr).font = c.font ∧ (setPen c clr).fontOptions = c.fontOptions ∧
    (setFill c clr).fillColor = clr ∧
    (setFill c clr).rgba = c.rgba ∧ (setFill c clr).penColor = c.penColor ∧
    (setFill c clr).textColor = c.textColor ∧ (setFill c clr).fontDrawer = c.fontDrawer ∧
    (setFill c clr).font = c.font ∧ (setFill c clr).fontOptions = c.fontOptions ∧
    (setTextColor c clr).textColor = clr ∧
    (setTextColor c clr).rgba = c.rgba ∧ (setTextColor c clr).penColor = c.penColor ∧
    (setTextColor c clr).fillColor = c.fillColor ∧ (setTextColor c clr).fontDrawer = c.fontDrawer ∧
    (setTextColor c clr).font = c.font ∧ (setTextColor c clr).fontOptions = c.fontOptions :=
  ⟨rfl, rfl, rfl, rfl, rfl, rfl, rfl, rfl, rfl, rfl, rfl, rfl, rfl, rfl, rfl, rfl, rfl, rfl,
   rfl, rfl, rfl⟩

/-- C3: SetFontSize on a freshly created context dereferences the nil
fontOptions pointer, a fatal nil-pointer panic (modelled as none), so
the operation does not run to completion. -/
theorem setFontSize_fresh_context_panics (img : RGBA) (size : ℚ) :
    setFontSize (newContext img) size = none :=
  rfl

/-- C4 counterexample: after Rect(2,2,7,7) on the 10 by 10 white
surface with black pen and transparent fill, the corner pixel (7,7)
reads back white, not black as the claim states. -/
theorem rect_corner_7_7_not_black :
    (rect ctx10 2 2 7 7).rgba.pix 7 7 = Color.white ∧ Color.white ≠ Color.black := by
  decide

/-- C4 amended: after Rect(2,2,7,7) on the 10 by 10 white surface with
black pen and transparent fill, the corners (2,2), (7,2) and (2,7) read
back black, the corner (7,7) reads back white (no edge plots it, since
each Line omits the pixel at the high end of its dominant axis), and
the interior pixel (5,5) reads back white. -/
theorem rect_outline_end_to_end :
    (rect ctx10 2 2 7 7).rgba.pix 2 2 = Color.black ∧
    (rect ctx10 2 2 7 7).rgba.pix 7 2 = Color.black ∧
    (rect ctx10 2 2 7 7).rgba.pix 2 7 = Color.black ∧
    (rect ctx10 2 2 7 7).rgba.pix 7 7 = Color.white ∧
    (rect ctx10 2 2 7 7).rgba.pix 5 5 = Color.white := by
  decide

/-- C6 counterexample: Cross(5,5,2) on the blank (white) surface leaves
the pixel (5,7) white, although the claim lists it among the plotted
pixels. -/
theorem cross_missing_claimed_pixel :
    (cross ctx10 5 5 2).rgba.pix 5 7 = Color.white ∧ Color.white ≠ Color.black := by
  decide

/-- C6 amended: Cross(5,5,2) on the blank (white) 10 by 10 surface
plots exactly the 7 pixels (5,3), (5,4), (5,5), (5,6), (3,5), (4,5),
(6,5): the far endpoints (5,7) and (7,5) are omitted by the exclusive
upper bound of Line. -/
theorem cross_exact_pixel_set :
    ∀ px py : Fin 10,
      ((cross ctx10 5 5 2).rgba.pix (px.val : Int) (py.val : Int) = Color.black ↔
        ((px.val : Int), (py.val : Int)) ∈
          ([(5, 3), (5, 4), (5, 5), (5, 6), (3, 5), (4, 5), (6, 5)] : List (Int × Int))) := by
  decide

/-- C2 counterexample: with a transparent pen and a black fill, after
Rect(2,2,7,7) the top-edge pixel (3,2) — inside the bounding strip the
claim says is filled — still reads back white: the fill phase painted
nothing. -/
theorem rect_fill_strip_refuted :
    (rect ctxFill 2 2 7 7).rgba.pix 3 2 = Color.white ∧ Color.white ≠ Color.black := by
  decide

/-- C1: the bounding box Polygon computes is not the clamped bounding
box of the deduplicated vertices.  On the 10 by 10 surface with the
square (2,2), (8,2), (8,8), (2,8), the code folds every vertex with
minInt into all four accumulators and clamps with min and max swapped,
producing the whole-surface box (0,0)-(10,10) instead of (2,2)-(8,8)
as its own comments and the specification describe. -/
theorem polygon_bbox_not_clamped :
    polygonBBox img10.bounds (dedupPoints [(2, 2), (8, 2), (8, 8), (2, 8)]) =
      { minX := 0, minY := 0, maxX := 10, maxY := 10 } ∧
    specPolygonBBox img10.bounds (dedupPoints [(2, 2), (8, 2), (8, 8), (2, 8)]) =
      { minX := 2, minY := 2, maxX := 8, maxY := 8 } ∧
    polygonBBox img10.bounds (dedupPoints [(2, 2), (8, 2), (8, 8), (2, 8)]) ≠
      specPolygonBBox img10.bounds (dedupPoints [(2, 2), (8, 2), (8, 8), (2, 8)]) := by
  decide

/-- natAbs_sub_swap: the absolute difference is symmetric. -/
theorem natAbs_sub_swap (a b : Int) : (a - b).natAbs = (b - a).natAbs := by
  rw [← Int.natAbs_neg, neg_sub]

/-- swapXandY_symm: the steepness test of Line does not depend on the
order of the endpoints. -/
theorem swapXandY_symm (x0 y0 x1 y1 : Int) :
    swapXandY x1 y1 x0 y0 = swapXandY x0 y0 x1 y1 := by
  unfold swapXandY
  rw [natAbs_sub_swap y0 y1, natAbs_sub_swap x0 x1]

/-- C7: Line plots exactly the same pixels for both endpoint orders;
in fact the plotted lists coincide, because both calls normalize to the
same loop over the dominant axis. -/
theorem line_endpoint_swap_same_pixels (x0 y0 x1 y1 : Int) :
    lineList x0 y0 x1 y1 = lineList x1 y1 x0 y0 := by
  have hs := swapXandY_symm x0 y0 x1 y1
  unfold lineList swap0and1
  rw [hs]
  rcases Bool.eq_false_or_eq_true (swapXandY x0 y0 x1 y1) with hsw | hsw <;> rw [hsw]
  · -- steep case: the dominant axis is y
    have hy : (x1 - x0).natAbs ≤ (y1 - y0).natAbs := by
      unfold swapXandY at hsw
      simpa using hsw
    rcases lt_trichotomy y0 y1 with h | h | h
    · simp [show ¬(y0 > y1) from by omega, show y1 > y0 from by omega]
    · have hx : x0 = x1 := by omega
      subst hx; subst h
      simp
    · simp [show y0 > y1 from by omega, show ¬(y1 > y0) from by omega]
  · -- shallow case: the dominant axis is x and it cannot be degenerate
    have hx : (y1 - y0).natAbs < (x1 - x0).natAbs := by
      unfold swapXandY at hsw
      simpa using hsw
    rcases lt_trichotomy x0 x1 with h | h | h
    · simp [show ¬(x0 > x1) from by omega, show x1 > x0 from by omega]
    · exfalso; omega
    · simp [show x0 > x1 from by omega, show ¬(x1 > x0) from by omega]

/-- bresLoop_map_dom: the stepping loop emits exactly one pixel per
dominant-axis value x, x+1, ..., x+n-1, in order. -/
theorem bresLoop_map_dom (sw : Bool) (yi dx dy : Int) :
    ∀ (n : Nat) (x y D : Int),
      (bresLoop sw yi dx dy n x y D).map (fun pt => if sw then pt.2 else pt.1) =
        (List.range n).map (fun (k : Nat) => x + (k : Int)) := by
  intro n
  induction n with
  | zero => intro x y D; rfl
  | succ n ih =>
      intro x y D
      rw [List.range_succ_eq_map, List.map_cons]
      simp only [bresLoop, List.map_cons]
      congr 1
      · cases sw <;> simp
      · rcases le_or_lt D 0 with hD | hD
        · rw [if_neg (by omega : ¬ (D > 0)), ih, List.map_map]
          congr 1
          funext k
          simp only [Function.comp]
          push_cast
          ring
        · rw [if_pos hD, ih, List.map_map]
          congr 1
          funext k
          simp only [Function.comp]
          push_cast
          ring

/-- bresLoop_map_snd specializes bresLoop_map_dom to the steep case,
where the emitted pixels are transposed. -/
theorem bresLoop_map_snd (yi dx dy : Int) (n : Nat) (x y D : Int) :
    (bresLoop true yi dx dy n x y D).map (fun pt => pt.2) =
      (List.range n).map (fun (k : Nat) => x + (k : Int)) := by
  simpa using bresLoop_map_dom true yi dx dy n x y D

/-- bresLoop_map_fst specializes bresLoop_map_dom to the shallow
case. -/
theorem bresLoop_map_fst (yi dx dy : Int) (n : Nat) (x y D : Int) :
    (bresLoop false yi dx dy n x y D).map (fun pt => pt.1) =
      (List.range n).map (fun (k : Nat) => x + (k : Int)) := by
  simpa using bresLoop_map_dom false yi dx dy n x y D

/-- lineCore_map_snd: in the steep case the y coordinates of the
emitted pixels are y0, y0+1, ..., up to but excluding y1. -/
theorem lineCore_map_snd (x0 y0 x1 y1 : Int) :
    (lineCore true x0 y0 x1 y1).map (fun pt => pt.2) =
      (List.range (y1 - y0).toNat).map (fun (k : Nat) => y0 + (k : Int)) := by
  simp only [lineCore]
  simp
  exact bresLoop_map_snd _ _ _ _ _ _ _

/-- lineCore_map_fst: in the shallow case the x coordinates of the
emitted pixels are x0, x0+1, ..., up to but excluding x1. -/
theorem lineCore_map_fst (x0 y0 x1 y1 : Int) :
    (lineCore false x0 y0 x1 y1).map (fun pt => pt.1) =
      (List.range (x1 - x0).toNat).map (fun (k : Nat) => x0 + (k : Int)) := by
  simp only [lineCore]
  simp
  exact bresLoop_map_fst _ _ _ _ _ _ _

/-- C5 counterexample: the segment from (5,0) to (0,0) is not
degenerate, yet Line(5,0,0,0) does plot the pixel at the caller
endpoint (x1,y1) = (0,0): the omitted pixel is the one at the higher
dominant-axis coordinate, here the start point (5,0). -/
theorem line_plots_caller_endpoint :
    ¬((5, 0) = ((0, 0) : Int × Int)) ∧ ((0, 0) : Int × Int) ∈ lineList 5 0 0 0 := by
  decide

/-- C5 amended: for every non-degenerate segment, Line plots exactly
one pixel per dominant-axis value over the half-open range from the
lower to the higher dominant coordinate; the pixel it omits is the
endpoint with the higher dominant-axis coordinate, which is the caller
endpoint (x1,y1) exactly when the dominant coordinate increases from
(x0,y0) to (x1,y1), and is (x0,y0) otherwise. -/
theorem line_dominant_steps (x0 y0 x1 y1 : Int) (h : ¬(x0 = x1 ∧ y0 = y1)) :
    ((lineList x0 y0 x1 y1).map (domAxis x0 y0 x1 y1) =
      (List.range (domAxis x0 y0 x1 y1 (x1, y1) - domAxis x0 y0 x1 y1 (x0, y0)).natAbs).map
        (fun (k : Nat) =>
          min (domAxis x0 y0 x1 y1 (x0, y0)) (domAxis x0 y0 x1 y1 (x1, y1)) + (k : Int))) ∧
    (domAxis x0 y0 x1 y1 (x0, y0) < domAxis x0 y0 x1 y1 (x1, y1) →
      (x1, y1) ∉ lineList x0 y0 x1 y1) ∧
    (domAxis x0 y0 x1 y1 (x1, y1) < domAxis x0 y0 x1 y1 (x0, y0) →
      (x0, y0) ∉ lineList x0 y0 x1 y1) := by
  have main : (lineList x0 y0 x1 y1).map (domAxis x0 y0 x1 y1) =
      (List.range (domAxis x0 y0 x1 y1 (x1, y1) - domAxis x0 y0 x1 y1 (x0, y0)).natAbs).map
        (fun (k : Nat) =>
          min (domAxis x0 y0 x1 y1 (x0, y0)) (domAxis x0 y0 x1 y1 (x1, y1)) + (k : Int)) := by
    unfold lineList swap0and1 domAxis
    rcases Bool.eq_false_or_eq_true (swapXandY x0 y0 x1 y1) with hsw | hsw <;> rw [hsw]
    · -- steep: the dominant axis is y
      have hy : (x1 - x0).natAbs ≤ (y1 - y0).natAbs := by
        unfold swapXandY at hsw
        simpa using hsw
      rcases lt_trichotomy y0 y1 with hlt | heq | hgt
      · simp only [show ¬(y0 > y1) from by omega]
        simp
        rw [lineCore_map_snd,
          show min y0 y1 = y0 from min_eq_left (by omega),
          show (y1 - y0).natAbs = (y1 - y0).toNat from by omega]
      · exfalso; exact h ⟨by omega, heq⟩
      · simp only [show y0 > y1 from by omega]
        simp
        rw [lineCore_map_snd,
          show min y0 y1 = y1 from min_eq_right (by omega),
          show (y1 - y0).natAbs = (y0 - y1).toNat from by omega]
    · -- shallow: the dominant axis is x
      have hx : (y1 - y0).natAbs < (x1 - x0).natAbs := by
        unfold swapXandY at hsw
        simpa using hsw
      rcases lt_trichotomy x0 x1 with hlt | heq | hgt
      · simp only [show ¬(x0 > x1) from by omega]
        simp
        rw [lineCore_map_fst,
          show min x0 x1 = x0 from min_eq_left (by omega),
          show (x1 - x0).natAbs = (x1 - x0).toNat from by omega]
      · exfalso; omega
      · simp only [show x0 > x1 from by omega]
        simp
        rw [lineCore_map_fst,
          show min x0 x1 = x1 from min_eq_right (by omega),
          show (x1 - x0).natAbs = (x0 - x1).toNat from by omega]
  refine ⟨main, ?_, ?_⟩
  · intro hlt hmem
    have hmm := List.mem_map_of_mem (domAxis x0 y0 x1 y1) hmem
    rw [main] at hmm
    obtain ⟨k, hk, heq⟩ := List.mem_map.mp hmm
    have hkN := List.mem_range.mp hk
    rw [min_eq_left hlt.le] at heq
    omega
  · intro hlt hmem
    have hmm := List.mem_map_of_mem (domAxis x0 y0 x1 y1) hmem
    rw [main] at hmm
    obtain ⟨k, hk, heq⟩ := List.mem_map.mp hmm
    have hkN := List.mem_range.mp hk
    rw [min_eq_right hlt.le] at heq
    omega

/-- line_dominant_steps_witness instantiates line_dominant_steps at the
concrete segment from (0,0) to (5,0). -/
theorem line_dominant_steps_witness :
    (¬(((0 : Int) = 5) ∧ ((0 : Int) = 0))) ∧
    (((lineList 0 0 5 0).map (domAxis 0 0 5 0) =
      (List.range (domAxis 0 0 5 0 (5, 0) - domAxis 0 0 5 0 (0, 0)).natAbs).map
        (fun (k : Nat) =>
          min (domAxis 0 0 5 0 (0, 0)) (domAxis 0 0 5 0 (5, 0)) + (k : Int))) ∧
    (domAxis 0 0 5 0 (0, 0) < domAxis 0 0 5 0 (5, 0) →
      (5, 0) ∉ lineList 0 0 5 0) ∧
    (domAxis 0 0 5 0 (5, 0) < domAxis 0 0 5 0 (0, 0) →
      (0, 0) ∉ lineList 0 0 5 0)) :=
  ⟨by decide, line_dominant_steps 0 0 5 0 (by decide)⟩

/-- foldl_toggle: a fold that flips a boolean whenever a predicate
holds computes the xor of the start value with the parity of the number
of hits. -/
theorem foldl_toggle (P : Nat → Bool) : ∀ (l : List Nat) (b : Bool),
    l.foldl (fun odd i => if P i then !odd else odd) b =
      b.xor (decide (l.countP P % 2 = 1)) := by
  intro l
  induction l with
  | nil => intro b; simp
  | cons a t ih =>
      intro b
      rw [List.foldl_cons, ih, List.countP_cons]
      cases hPa : P a
      · simp [hPa]
      · simp only [hPa, if_true, if_pos]
        rw [show decide ((t.countP P + 1) % 2 = 1) = !decide (t.countP P % 2 = 1) from by
          rcases Nat.mod_two_eq_zero_or_one (t.countP P) with h | h <;> simp [h, Nat.add_mod]]
        cases b <;> cases hd : decide (t.countP P % 2 = 1) <;> rfl

/-- cyclicEdges_eq_range_map: the zip-with-rotation edge list is
exactly the indexed predecessor pairing of the loop in IsInPolygon. -/
theorem cyclicEdges_eq_range_map (l : List (ℚ × ℚ)) :
    cyclicEdges l =
      (List.range l.length).map
        (fun i => (l.getD i (0, 0), l.getD (if i = 0 then l.length - 1 else i - 1) (0, 0))) := by
  apply List.ext_getElem
  · simp [cyclicEdges]
  · intro i h1 h2
    have hi : i < l.length := by simpa [cyclicEdges] using h1
    have hpred : (if i = 0 then l.length - 1 else i - 1) < l.length := by
      split <;> omega
    rw [List.getElem_map, List.getElem_range]
    simp only [cyclicEdges]
    rw [List.getElem_zip, List.getElem_rotate]
    rw [List.getD_eq_getElem l (0, 0) hi, List.getD_eq_getElem l (0, 0) hpred]
    have hAB : (i + (l.length - 1)) % l.length = (if i = 0 then l.length - 1 else i - 1) := by
      rcases Nat.eq_zero_or_pos i with h0 | h0
      · subst h0
        rw [if_pos rfl, Nat.zero_add]
        exact Nat.mod_eq_of_lt (by omega)
      · rw [if_neg (by omega)]
        rw [show i + (l.length - 1) = (i - 1) + l.length from by omega, Nat.add_mod_right]
        exact Nat.mod_eq_of_lt (by omega)
    simp only [hAB]

/-- isInPolygon_parity: the even-odd loop returns whether the number
of cyclic edges crossing the ray is odd. -/
theorem isInPolygon_parity (x y : Int) (pts : List (Int × Int)) :
    isInPolygon x y pts =
      decide ((cyclicEdges (toQ pts)).countP
        (fun e => crossesRay (x : ℚ) (y : ℚ) e.1 e.2) % 2 = 1) := by
  simp only [isInPolygon]
  rw [foldl_toggle, Bool.false_xor, cyclicEdges_eq_range_map, List.countP_map]
  rfl

/-- zip_rotate: rotating two lists of the same length and zipping is
the same as zipping and then rotating. -/
theorem zip_rotate {α β : Type} (l : List α) (m : List β) (k : Nat) (h : l.length = m.length) :
    (l.rotate k).zip (m.rotate k) = (l.zip m).rotate k := by
  apply List.ext_getElem
  · simp [h]
  · intro i h1 h2
    simp only [List.getElem_zip, List.getElem_rotate, List.length_zip, h, Nat.min_self]

/-- cyclicEdges_rotate: rotating the vertex list rotates the cyclic
edge list by the same amount. -/
theorem cyclicEdges_rotate (l : List (ℚ × ℚ)) (k : Nat) :
    cyclicEdges (l.rotate k) = (cyclicEdges l).rotate k := by
  unfold cyclicEdges
  rw [List.length_rotate]
  rw [show (l.rotate k).rotate (l.length - 1) = (l.rotate (l.length - 1)).rotate k from by
    rw [List.rotate_rotate, List.rotate_rotate, Nat.add_comm]]
  exact zip_rotate l (l.rotate (l.length - 1)) k (by rw [List.length_rotate])

/-- C8: IsInPolygon gives the same answer on every cyclic rotation of
the vertex list: rotating the vertices permutes the cyclic edge list,
and the even-odd result only depends on how many edges cross the
ray. -/
theorem isInPolygon_rotation_invariant (x y : Int) (pts : List (Int × Int)) (k : Nat) :
    isInPolygon x y (pts.rotate k) = isInPolygon x y pts := by
  rw [isInPolygon_parity, isInPolygon_parity]
  have h1 : toQ (pts.rotate k) = (toQ pts).rotate k := by
    simp [toQ, List.map_rotate]
  rw [h1, cyclicEdges_rotate,
    (List.rotate_perm (cyclicEdges (toQ pts)) k).countP_eq
      (fun e => crossesRay (x : ℚ) (y : ℚ) e.1 e.2)]

/-- interp_comm: the interpolated x-intersection of an edge with a
horizontal line is the same whichever endpoint comes first, provided
the edge is not horizontal. -/
theorem interp_comm (fY a1 a2 b1 b2 : ℚ) (h : a2 ≠ b2) :
    (b1 - a1) * (fY - a2) / (b2 - a2) + a1 = (a1 - b1) * (fY - b2) / (a2 - b2) + b1 := by
  have h1 : b2 - a2 ≠ 0 := sub_ne_zero.mpr (Ne.symm h)
  have h2 : a2 - b2 ≠ 0 := sub_ne_zero.mpr h
  field_simp
  ring

/-- crossesRay_comm: the per-edge crossing test is symmetric in the
two endpoints of the edge. -/
theorem crossesRay_comm (fX fY : ℚ) (a b : ℚ × ℚ) :
    crossesRay fX fY a b = crossesRay fX fY b a := by
  unfold crossesRay
  by_cases h : a.2 = b.2
  · rw [h]
    simp
  · rw [interp_comm fY a.1 a.2 b.1 b.2 h]
    cases hA : decide (a.2 > fY) <;> cases hB : decide (b.2 > fY) <;> simp [hA, hB]

/-- C9: IsInPolygon returns false on every vertex list with fewer than
three points: with no vertices the loop never runs, with one vertex the
single self-edge never crosses, and with two vertices the two opposite
edges cross together, so the toggle count is even. -/
theorem isInPolygon_lt_three_false (x y : Int) (pts : List (Int × Int))
    (h : pts.length < 3) : isInPolygon x y pts = false := by
  rcases pts with _ | ⟨a, _ | ⟨b, _ | ⟨c, t⟩⟩⟩
  · rfl
  · rw [isInPolygon_parity]
    have hedges : cyclicEdges (toQ [a]) =
        [((((a.1 : ℚ)), ((a.2 : ℚ))), (((a.1 : ℚ)), ((a.2 : ℚ))))] := rfl
    rw [hedges]
    simp [crossesRay]
  · rw [isInPolygon_parity]
    have hedges : cyclicEdges (toQ [a, b]) =
        [((((a.1 : ℚ)), ((a.2 : ℚ))), (((b.1 : ℚ)), ((b.2 : ℚ)))),
         ((((b.1 : ℚ)), ((b.2 : ℚ))), (((a.1 : ℚ)), ((a.2 : ℚ))))] := rfl
    rw [hedges]
    simp only [List.countP_cons, List.countP_nil]
    rw [crossesRay_comm ((x : ℚ)) ((y : ℚ)) (((b.1 : ℚ)), ((b.2 : ℚ))) (((a.1 : ℚ)), ((a.2 : ℚ)))]
    cases hc : crossesRay ((x : ℚ)) ((y : ℚ)) (((a.1 : ℚ)), ((a.2 : ℚ))) (((b.1 : ℚ)), ((b.2 : ℚ))) <;>
      simp [hc]
  · simp only [List.length_cons] at h
    omega

/-- isInPolygon_lt_three_false_witness instantiates the theorem at a
concrete two-point list. -/
theorem isInPolygon_lt_three_false_witness :
    (([((1 : Int), (2 : Int)), (3, 4)] : List (Int × Int)).length < 3) ∧
      isInPolygon 0 0 [(1, 2), (3, 4)] = false :=
  ⟨by decide, isInPolygon_lt_three_false 0 0 [(1, 2), (3, 4)] (by decide)⟩

/-- C2 amended: the fill phase of Rect paints no pixel at all: its
destination rectangle image.Rect(x0, y0, x1, y0) has zero height, so
with a transparent pen (isolating the fill phase) Rect leaves every
pixel of the surface unchanged. -/
theorem rect_fill_noop (c : Context) (x0 y0 x1 y1 a b : Int)
    (h : c.penColor = Color.transparent) :
    (rect c x0 y0 x1 y1).rgba.pix a b = c.rgba.pix a b := by
  have hfa : ∀ (img : RGBA) (clr : Color),
      (drawUniform img (imageRect x0 y0 x1 y0) clr).pix a b = img.pix a b := by
    intro img clr
    have hfalse : inRect (rectIntersect (imageRect x0 y0 x1 y0) img.bounds) a b = false := by
      simp only [inRect, rectIntersect, imageRect]
      have hy : minInt (maxInt y0 y0) img.bounds.maxY ≤ y0 ∧
          y0 ≤ maxInt (minInt y0 y0) img.bounds.minY := by
        unfold minInt maxInt
        constructor <;> (split_ifs <;> omega)
      cases hd3 : decide (maxInt (minInt y0 y0) img.bounds.minY ≤ b)
      · simp [hd3]
      · have h3 := of_decide_eq_true hd3
        have hnb : ¬ (b < minInt (maxInt y0 y0) img.bounds.maxY) := by omega
        simp [hd3, hnb]
    simp only [drawUniform, hfalse]
    simp
  simp only [rect]
  rw [h]
  simp only [ne_eq, not_true_eq_false, if_false]
  split_ifs with hf
  · rfl
  · exact hfa c.rgba c.fillColor

/-- rect_fill_noop_witness instantiates the theorem on the concrete
context with a transparent pen and a black fill. -/
theorem rect_fill_noop_witness :
    ctxFill.penColor = Color.transparent ∧
      (rect ctxFill 2 2 7 7).rgba.pix 5 5 = ctxFill.rgba.pix 5 5 :=
  ⟨rfl, rect_fill_noop ctxFill 2 2 7 7 5 5 rfl⟩

end Draw
